import Mathlib

/-!
Verification model for the bereal-api client library core.

The development shallowly embeds the request-authentication subsystem of the
library: the token codec (src/utils.ts: parseAccessToken, isAccessTokenExpired),
the signature generator (src/utils.ts: createBeRealSignature), the constants
module (src/constants.ts), and the session layer (src/mobile-l7.ts: class
BeReal and the auth clients). Machine numbers are modelled as Nat and Int;
JavaScript wall-clock reads (Date.now) become explicit Int parameters in epoch
milliseconds; fallible code returns Except or Option. JSON numbers are
modelled as integers, which covers every field the library reads (iat and exp
are epoch seconds).
-/

set_option maxRecDepth 4096

/-- JSON value as produced by JSON.parse, with numbers restricted to integers.
Object fields keep insertion order; on duplicate keys the JavaScript object
keeps the last value, which is what getField returns. -/
inductive Json where
  | null : Json
  | bool (b : Bool) : Json
  | num (n : Int) : Json
  | str (s : String) : Json
  | arr (elems : List Json) : Json
  | obj (fields : List (String × Json)) : Json

/-- Property access on a parsed JSON value: on an object the last binding of
the key wins (JavaScript duplicate-key semantics); on every other value the
access yields undefined, modelled as none. -/
def Json.getField : Json → String → Option Json
  | .obj fields, k => fields.foldl (fun acc p => if p.fst = k then some p.snd else acc) none
  | _, _ => none

/-- Model of the JavaScript String.prototype.split call with separator dot, as
used by parseAccessToken. The result is never empty, and an input without any
dot yields a one-element list. -/
def splitOnDot : List Char → List (List Char)
  | [] => [[]]
  | c :: rest =>
    if c = '.' then [] :: splitOnDot rest
    else
      match splitOnDot rest with
      | [] => [[c]]
      | s :: ss => (c :: s) :: ss

/-- Standard base64 alphabet, position-indexed. -/
def b64Chars : List Char :=
  "ABCDEFGHIJKLMNOPQRSTUVWXYZabcdefghijklmnopqrstuvwxyz0123456789+/".data

/-- Character of a sextet value. -/
def b64Char (v : Nat) : Char := b64Chars.getD v '='

def b64ValAux : List Char → Nat → Char → Option Nat
  | [], _, _ => none
  | t :: ts, i, c => if t = c then some i else b64ValAux ts (i + 1) c

/-- Sextet value of an alphabet character; none for a character outside the
standard base64 alphabet (in particular for the url-safe dash and underscore,
for the padding sign and for the dot). -/
def b64Val (c : Char) : Option Nat := b64ValAux b64Chars 0 c

/-- Standard base64 encoding of a byte list with padding, the encoding used by
the encodeBase64 helper of the std encoding package. -/
def encB64 : List Nat → List Char
  | [] => []
  | [b1] => [b64Char (b1 / 4), b64Char (b1 % 4 * 16), '=', '=']
  | [b1, b2] => [b64Char (b1 / 4), b64Char (b1 % 4 * 16 + b2 / 16), b64Char (b2 % 16 * 4), '=']
  | b1 :: b2 :: b3 :: rest =>
    b64Char (b1 / 4) :: b64Char (b1 % 4 * 16 + b2 / 16) ::
      b64Char (b2 % 16 * 4 + b3 / 64) :: b64Char (b3 % 64) :: encB64 rest

/-- Standard base64 decoding, the model of the decodeBase64 helper of the std
encoding package (and of atob): only the standard alphabet is accepted, padding
may close the final quadruple, a final quadruple may also arrive unpadded as
two or three characters, and a length congruent to one modulo four fails. -/
def decB64 : List Char → Option (List Nat)
  | [] => some []
  | [c1, c2] => do
    let v1 ← b64Val c1
    let v2 ← b64Val c2
    some [v1 * 4 + v2 / 16]
  | [c1, c2, c3] => do
    let v1 ← b64Val c1
    let v2 ← b64Val c2
    let v3 ← b64Val c3
    some [v1 * 4 + v2 / 16, v2 % 16 * 16 + v3 / 4]
  | c1 :: c2 :: c3 :: c4 :: rest =>
    if c4 = '=' then
      if rest = [] then
        if c3 = '=' then do
          let v1 ← b64Val c1
          let v2 ← b64Val c2
          some [v1 * 4 + v2 / 16]
        else do
          let v1 ← b64Val c1
          let v2 ← b64Val c2
          let v3 ← b64Val c3
          some [v1 * 4 + v2 / 16, v2 % 16 * 16 + v3 / 4]
      else none
    else do
      let v1 ← b64Val c1
      let v2 ← b64Val c2
      let v3 ← b64Val c3
      let v4 ← b64Val c4
      let bs ← decB64 rest
      some ((v1 * 4 + v2 / 16) :: (v2 % 16 * 16 + v3 / 4) :: (v3 % 4 * 64 + v4) :: bs)
  | [_] => none

/-- Unicode replacement character, used by the lossy TextDecoder model. -/
def replChar : Char := Char.ofNat 65533

/-- UTF-8 encoding of one scalar value, as performed by TextEncoder. -/
def utf8EncodeChar (c : Char) : List Nat :=
  let n := c.toNat
  if n < 128 then [n]
  else if n < 2048 then [192 + n / 64, 128 + n % 64]
  else if n < 65536 then [224 + n / 4096, 128 + n / 64 % 64, 128 + n % 64]
  else [240 + n / 262144, 128 + n / 4096 % 64, 128 + n / 64 % 64, 128 + n % 64]

/-- UTF-8 encoding of a string, as performed by TextEncoder. -/
def utf8Encode (s : String) : List Nat := (s.data.map utf8EncodeChar).flatten

def isCont (b : Nat) : Bool := 128 ≤ b && b < 192

/-- Lossy UTF-8 decoding with fuel (one unit per decoded character): a well
formed sequence yields its scalar value, anything else yields the replacement
character and resynchronises on the next byte. Models the default
TextDecoder, which substitutes rather than throws. -/
def utf8DecodeAux : Nat → List Nat → List Char
  | 0, _ => []
  | fuel + 1, bs =>
    match bs with
    | [] => []
    | b1 :: rest =>
      if b1 < 128 then Char.ofNat b1 :: utf8DecodeAux fuel rest
      else if b1 < 192 then replChar :: utf8DecodeAux fuel rest
      else if b1 < 224 then
        match rest with
        | b2 :: rest2 =>
          if isCont b2 then Char.ofNat ((b1 - 192) * 64 + (b2 - 128)) :: utf8DecodeAux fuel rest2
          else replChar :: utf8DecodeAux fuel rest
        | [] => [replChar]
      else if b1 < 240 then
        match rest with
        | b2 :: b3 :: rest3 =>
          if isCont b2 && isCont b3 then
            Char.ofNat ((b1 - 224) * 4096 + (b2 - 128) * 64 + (b3 - 128)) :: utf8DecodeAux fuel rest3
          else replChar :: utf8DecodeAux fuel rest
        | _ => replChar :: utf8DecodeAux fuel rest
      else if b1 < 248 then
        match rest with
        | b2 :: b3 :: b4 :: rest4 =>
          if isCont b2 && isCont b3 && isCont b4 then
            Char.ofNat ((b1 - 240) * 262144 + (b2 - 128) * 4096 + (b3 - 128) * 64 + (b4 - 128)) ::
              utf8DecodeAux fuel rest4
          else replChar :: utf8DecodeAux fuel rest
        | _ => replChar :: utf8DecodeAux fuel rest
      else replChar :: utf8DecodeAux fuel rest

/-- Lossy UTF-8 decoding of a byte list; every step consumes at least one
byte, so the length of the input is enough fuel. -/
def utf8Decode (bs : List Nat) : List Char := utf8DecodeAux bs.length bs

/-- String view of the lossy UTF-8 decoding. -/
def utf8DecodeStr (bs : List Nat) : String := String.mk (utf8Decode bs)

/-- Opening curly brace character, written via its code point to keep string
scanning simple. -/
def lcurly : Char := Char.ofNat 123

/-- Closing curly brace character. -/
def rcurly : Char := Char.ofNat 125

def skipWs : List Char → List Char :=
  List.dropWhile (fun c => c = ' ' || c = '\t' || c = '\n' || c = '\r')

def hexVal (c : Char) : Option Nat :=
  if '0' ≤ c && c ≤ '9' then some (c.toNat - 48)
  else if 'a' ≤ c && c ≤ 'f' then some (c.toNat - 87)
  else if 'A' ≤ c && c ≤ 'F' then some (c.toNat - 55)
  else none

/-- Code-unit to character conversion for unicode escapes: a lone surrogate
code unit, not representable as a scalar value, becomes the replacement
character. -/
def charOfCodeUnit (m : Nat) : Char :=
  if 55296 ≤ m && m ≤ 57343 then replChar else Char.ofNat m

/-- JSON string body parser (the opening quote already consumed), with fuel
for one consumed character per unit: handles the escape sequences accepted by
JSON.parse, including unicode escapes and surrogate pairs, and rejects raw
control characters. -/
def parseStrBodyAux : Nat → List Char → Option (List Char × List Char)
  | 0, _ => none
  | fuel + 1, cs =>
    match cs with
    | [] => none
    | '"' :: rest => some ([], rest)
    | '\\' :: esc =>
      match esc with
      | '"' :: r => (parseStrBodyAux fuel r).map (fun p => ('"' :: p.fst, p.snd))
      | '\\' :: r => (parseStrBodyAux fuel r).map (fun p => ('\\' :: p.fst, p.snd))
      | '/' :: r => (parseStrBodyAux fuel r).map (fun p => ('/' :: p.fst, p.snd))
      | 'b' :: r => (parseStrBodyAux fuel r).map (fun p => (Char.ofNat 8 :: p.fst, p.snd))
      | 'f' :: r => (parseStrBodyAux fuel r).map (fun p => (Char.ofNat 12 :: p.fst, p.snd))
      | 'n' :: r => (parseStrBodyAux fuel r).map (fun p => ('\n' :: p.fst, p.snd))
      | 'r' :: r => (parseStrBodyAux fuel r).map (fun p => ('\r' :: p.fst, p.snd))
      | 't' :: r => (parseStrBodyAux fuel r).map (fun p => ('\t' :: p.fst, p.snd))
      | 'u' :: h1 :: h2 :: h3 :: h4 :: r =>
        match hexVal h1, hexVal h2, hexVal h3, hexVal h4 with
        | some v1, some v2, some v3, some v4 =>
          let n := v1 * 4096 + v2 * 256 + v3 * 16 + v4
          if 55296 ≤ n && n ≤ 56319 then
            match r with
            | '\\' :: 'u' :: k1 :: k2 :: k3 :: k4 :: r2 =>
              match hexVal k1, hexVal k2, hexVal k3, hexVal k4 with
              | some w1, some w2, some w3, some w4 =>
                let m := w1 * 4096 + w2 * 256 + w3 * 16 + w4
                if 56320 ≤ m && m ≤ 57343 then
                  (parseStrBodyAux fuel r2).map (fun p =>
                    (Char.ofNat (65536 + (n - 55296) * 1024 + (m - 56320)) :: p.fst, p.snd))
                else
                  (parseStrBodyAux fuel r2).map (fun p =>
                    (replChar :: charOfCodeUnit m :: p.fst, p.snd))
              | _, _, _, _ => none
            | _ => (parseStrBodyAux fuel r).map (fun p => (replChar :: p.fst, p.snd))
          else (parseStrBodyAux fuel r).map (fun p => (charOfCodeUnit n :: p.fst, p.snd))
        | _, _, _, _ => none
      | _ => none
    | c :: rest =>
      if c.toNat < 32 then none
      else (parseStrBodyAux fuel rest).map (fun p => (c :: p.fst, p.snd))

def parseStrBody (cs : List Char) : Option (String × List Char) :=
  (parseStrBodyAux cs.length cs).map (fun p => (String.mk p.fst, p.snd))

def isDigitCh (c : Char) : Bool := '0' ≤ c && c ≤ '9'

def digitsToNat (ds : List Char) : Nat := ds.foldl (fun a c => a * 10 + (c.toNat - 48)) 0

/-- Unsigned integer literal parser; at least one digit, no leading zero (the
JSON number grammar). Fractions and exponents are outside the integer model. -/
def parseNatLit (cs : List Char) : Option (Nat × List Char) :=
  let p := cs.span isDigitCh
  match p.fst with
  | [] => none
  | [d] => some (digitsToNat [d], p.snd)
  | d :: ds => if d = '0' then none else some (digitsToNat (d :: ds), p.snd)

mutual

/-- Recursive-descent JSON value parser modelling JSON.parse, with fuel for
termination. Returns the value and the unconsumed remainder. -/
def parseVal : Nat → List Char → Option (Json × List Char)
  | 0, _ => none
  | fuel + 1, cs =>
    match skipWs cs with
    | 'n' :: 'u' :: 'l' :: 'l' :: rest => some (.null, rest)
    | 't' :: 'r' :: 'u' :: 'e' :: rest => some (.bool true, rest)
    | 'f' :: 'a' :: 'l' :: 's' :: 'e' :: rest => some (.bool false, rest)
    | '"' :: rest => (parseStrBody rest).map (fun p => (.str p.fst, p.snd))
    | '-' :: rest => (parseNatLit rest).map (fun p => (.num (-(p.fst : Int)), p.snd))
    | '[' :: rest =>
      match skipWs rest with
      | ']' :: rest2 => some (.arr [], rest2)
      | _ => (parseElems fuel rest).map (fun p => (.arr p.fst, p.snd))
    | c :: rest =>
      if c = lcurly then
        match skipWs rest with
        | c2 :: rest2 =>
          if c2 = rcurly then some (.obj [], rest2)
          else (parseMembers fuel rest).map (fun p => (.obj p.fst, p.snd))
        | [] => none
      else if isDigitCh c then
        (parseNatLit (c :: rest)).map (fun p => (.num (p.fst : Int), p.snd))
      else none
    | [] => none

/-- Array element list parser, after the opening bracket of a nonempty array. -/
def parseElems : Nat → List Char → Option (List Json × List Char)
  | 0, _ => none
  | fuel + 1, cs => do
    let pj ← parseVal fuel cs
    match skipWs pj.snd with
    | ',' :: rest => (parseElems fuel rest).map (fun p => (pj.fst :: p.fst, p.snd))
    | ']' :: rest => some ([pj.fst], rest)
    | _ => none

/-- Object member list parser, after the opening brace of a nonempty object. -/
def parseMembers : Nat → List Char → Option (List (String × Json) × List Char)
  | 0, _ => none
  | fuel + 1, cs =>
    match skipWs cs with
    | '"' :: rest => do
      let pk ← parseStrBody rest
      match skipWs pk.snd with
      | ':' :: rest2 => do
        let pv ← parseVal fuel rest2
        match skipWs pv.snd with
        | ',' :: rest3 => (parseMembers fuel rest3).map (fun p => ((pk.fst, pv.fst) :: p.fst, p.snd))
        | c :: rest3 =>
          if c = rcurly then some ([(pk.fst, pv.fst)], rest3) else none
        | [] => none
      | _ => none
    | _ => none

end

/-- Model of JSON.parse: parse one value, allow surrounding whitespace, demand
the whole input be consumed. -/
def jsonParse (s : String) : Option Json :=
  match parseVal (8 * (s.data.length + 1)) s.data with
  | some p => if skipWs p.snd = [] then some p.fst else none
  | none => none

/-- Runtime error kinds reachable from the modelled code paths. The spec calls
the two decode failures MalformedTokenError collectively; in the source they
surface as the raw base64 or JSON exception. The expired kind models the
BeRealAccessTokenExpiredError class of src/mobile-l7.ts. -/
inductive JsError where
  | base64DecodeError : JsError
  | jsonSyntaxError : JsError
  | accessTokenExpired : JsError
deriving DecidableEq

/-- True when a result is an error of one of the two malformed-token kinds
(the spec groups both under MalformedTokenError). -/
def isMalformedFailure {α : Type} : Except JsError α → Bool
  | .error .base64DecodeError => true
  | .error .jsonSyntaxError => true
  | _ => false

/-- Decode one token segment: base64-decode, lossily UTF-8 decode, JSON-parse.
A missing segment (the undefined array read in the source) is modelled as the
base64 decode failure it produces there. -/
def decodeSegToJson : Option (List Char) → Except JsError Json
  | none => .error .base64DecodeError
  | some seg =>
    match decB64 seg with
    | none => .error .base64DecodeError
    | some bytes =>
      match jsonParse (utf8DecodeStr bytes) with
      | none => .error .jsonSyntaxError
      | some j => .ok j

/-- Model of parseAccessToken (src/utils.ts, lines 94 to 108): split on dots,
decode segment zero as the header and segment one as the payload, in that
order; no shape validation is performed on the parsed values and no segment
past index one is read. -/
def parseAccessToken (token : String) : Except JsError (Json × Json) :=
  match decodeSegToJson (splitOnDot token.data)[0]? with
  | .error e => .error e
  | .ok hj =>
    match decodeSegToJson (splitOnDot token.data)[1]? with
    | .error e => .error e
    | .ok pj => .ok (hj, pj)

/-- The expiry comparison payload.exp less-than now in epoch seconds, as in
isAccessTokenExpired of src/utils.ts. A non-numeric or absent exp yields a NaN
comparison in JavaScript, hence false. -/
def expSecLt (pj : Json) (nowSec : Int) : Bool :=
  match pj.getField "exp" with
  | some (.num e) => decide (e < nowSec)
  | _ => false

/-- Model of isAccessTokenExpired (src/utils.ts, lines 116 to 119): parse the
token, then compare payload.exp strictly against the current epoch second. -/
def isAccessTokenExpired (token : String) (nowSec : Int) : Except JsError Bool :=
  match parseAccessToken token with
  | .error e => .error e
  | .ok hp => .ok (expSecLt hp.snd nowSec)

/-- Truncation to a 32-bit word. -/
def w32 (n : Nat) : Nat := n % 4294967296

/-- Right rotation of a 32-bit word by k positions. -/
def rotr32 (k x : Nat) : Nat := w32 (x / 2 ^ k + x % 2 ^ k * 2 ^ (32 - k))

def bigSigma0 (x : Nat) : Nat := (rotr32 2 x ^^^ rotr32 13 x) ^^^ rotr32 22 x

def bigSigma1 (x : Nat) : Nat := (rotr32 6 x ^^^ rotr32 11 x) ^^^ rotr32 25 x

def smallSigma0 (x : Nat) : Nat := (rotr32 7 x ^^^ rotr32 18 x) ^^^ x / 8

def smallSigma1 (x : Nat) : Nat := (rotr32 17 x ^^^ rotr32 19 x) ^^^ x / 1024

def chF (x y z : Nat) : Nat := (x &&& y) ^^^ ((x ^^^ 4294967295) &&& z)

def majF (x y z : Nat) : Nat := ((x &&& y) ^^^ (x &&& z)) ^^^ (y &&& z)

/-- The 64 SHA-256 round constants, written in decimal. -/
def sha256K : List Nat :=
  [1116352408, 1899447441, 3049323471, 3921009573,
   961987163, 1508970993, 2453635748, 2870763221,
   3624381080, 310598401, 607225278, 1426881987,
   1925078388, 2162078206, 2614888103, 3248222580,
   3835390401, 4022224774, 264347078, 604807628,
   770255983, 1249150122, 1555081692, 1996064986,
   2554220882, 2821834349, 2952996808, 3210313671,
   3336571891, 3584528711, 113926993, 338241895,
   666307205, 773529912, 1294757372, 1396182291,
   1695183700, 1986661051, 2177026350, 2456956037,
   2730485921, 2820302411, 3259730800, 3345764771,
   3516065817, 3600352804, 4094571909, 275423344,
   430227734, 506948616, 659060556, 883997877,
   958139571, 1322822218, 1537002063, 1747873779,
   1955562222, 2024104815, 2227730452, 2361852424,
   2428436474, 2756734187, 3204031479, 3329325298]

/-- SHA-256 working state, eight 32-bit words. -/
structure Sha256State where
  a : Nat
  b : Nat
  c : Nat
  d : Nat
  e : Nat
  f : Nat
  g : Nat
  h : Nat

def sha256H0 : Sha256State :=
  ⟨1779033703, 3144134277, 1013904242, 2773480762,
   1359893119, 2600822924, 528734635, 1541459225⟩

/-- Big-endian bytes of a 64-bit length field. -/
def be8 (n : Nat) : List Nat :=
  [n / 72057594037927936 % 256, n / 281474976710656 % 256, n / 1099511627776 % 256,
   n / 4294967296 % 256, n / 16777216 % 256, n / 65536 % 256, n / 256 % 256, n % 256]

/-- Big-endian bytes of a 32-bit word. -/
def be4 (n : Nat) : List Nat :=
  [n / 16777216 % 256, n / 65536 % 256, n / 256 % 256, n % 256]

/-- SHA-256 message padding: a one bit, zeros to 56 modulo 64, then the bit
length as eight big-endian bytes. -/
def sha256Pad (msg : List Nat) : List Nat :=
  let len := msg.length
  msg ++ 128 :: List.replicate ((120 - (len + 1) % 64) % 64) 0 ++ be8 (len * 8)

def toWordsBE : List Nat → List Nat
  | b1 :: b2 :: b3 :: b4 :: rest => (b1 * 16777216 + b2 * 65536 + b3 * 256 + b4) :: toWordsBE rest
  | _ => []

def chunks64Aux : Nat → List Nat → List (List Nat)
  | 0, _ => []
  | _, [] => []
  | fuel + 1, l => l.take 64 :: chunks64Aux fuel (l.drop 64)

def chunks64 (l : List Nat) : List (List Nat) := chunks64Aux (l.length / 64 + 1) l

/-- Extend the 16 block words to the 64-entry message schedule. -/
def sha256Extend (w : Array Nat) : Array Nat :=
  (List.range 48).foldl (fun w i =>
    let j := i + 16
    w.push (w32 (smallSigma1 (w.getD (j - 2) 0) + w.getD (j - 7) 0 +
      smallSigma0 (w.getD (j - 15) 0) + w.getD (j - 16) 0))) w

def sha256Round (st : Sha256State) (ki wi : Nat) : Sha256State :=
  let t1 := w32 (st.h + bigSigma1 st.e + chF st.e st.f st.g + ki + wi)
  let t2 := w32 (bigSigma0 st.a + majF st.a st.b st.c)
  ⟨w32 (t1 + t2), st.a, st.b, st.c, w32 (st.d + t1), st.e, st.f, st.g⟩

def sha256Compress (st : Sha256State) (block : List Nat) : Sha256State :=
  let w := sha256Extend (toWordsBE block).toArray
  let r := (List.range 64).foldl (fun s i => sha256Round s (sha256K.getD i 0) (w.getD i 0)) st
  ⟨w32 (st.a + r.a), w32 (st.b + r.b), w32 (st.c + r.c), w32 (st.d + r.d),
   w32 (st.e + r.e), w32 (st.f + r.f), w32 (st.g + r.g), w32 (st.h + r.h)⟩

def sha256Serialize (st : Sha256State) : List Nat :=
  be4 st.a ++ be4 st.b ++ be4 st.c ++ be4 st.d ++ be4 st.e ++ be4 st.f ++ be4 st.g ++ be4 st.h

/-- SHA-256 of a byte list, the model of the sha256 primitive of node crypto
(an external collaborator of the repository). -/
def sha256 (msg : List Nat) : List Nat :=
  sha256Serialize ((chunks64 (sha256Pad msg)).foldl sha256Compress sha256H0)

/-- HMAC-SHA256, the model of createHmac of node crypto. -/
def hmacSha256 (key msg : List Nat) : List Nat :=
  let k0 := if 64 < key.length then sha256 key else key
  let kp := k0 ++ List.replicate (64 - k0.length) 0
  sha256 (kp.map (fun b => b ^^^ 92) ++ sha256 (kp.map (fun b => b ^^^ 54) ++ msg))

/-- Hex string to bytes, the model of decodeHex of the std encoding package,
restricted to the well formed constant it is applied to. -/
def decodeHexPairs : List Char → List Nat
  | c1 :: c2 :: rest =>
    match hexVal c1, hexVal c2 with
    | some v1, some v2 => (v1 * 16 + v2) :: decodeHexPairs rest
    | _, _ => []
  | _ => []

/-- The fixed HMAC key of src/constants.ts, lines 46 to 48. -/
def BEREAL_HMAC_KEY : List Nat :=
  decodeHexPairs "3536303337663461663232666236393630663363643031346532656337316233".data

def BEREAL_APP_BUNDLE_ID : String := "AlexisBarreyat.BeReal"

def BEREAL_APP_VERSION : String := "4.22.1"

def BEREAL_APP_VERSION_CODE : String := "20404"

def BEREAL_PLATFORM : String := "iOS"

def BEREAL_OS_VERSION : String := "16.6"

/-- Model of createBeRealSignature (src/utils.ts, lines 39 to 54). The
process-wide timezone constant BEREAL_TIMEZONE is read from the environment
at startup, so it is threaded as the explicit parameter tz; timestamp is the
epoch-second integer that defaults to the current wall clock at the call
site. The HMAC is taken over the UTF-8 bytes of the base64 encoding of the
payload string, and the result is the base64 encoding of the version tag,
the timestamp, a colon and the raw digest bytes. -/
def createBeRealSignature (tz : String) (deviceId : String) (timestamp : Int) : String :=
  let payload := deviceId ++ tz ++ toString timestamp
  let hashBuffer := hmacSha256 BEREAL_HMAC_KEY (utf8Encode (String.mk (encB64 (utf8Encode payload))))
  let tagBuffer := utf8Encode ("1:" ++ toString timestamp ++ ":")
  String.mk (encB64 (tagBuffer ++ hashBuffer))

/-- Header lookup where a later entry wins, matching both JavaScript object
spread merging and repeated Headers.set calls. -/
def lookupLast (hs : List (String × String)) (k : String) : Option String :=
  hs.foldl (fun acc p => if p.fst = k then some p.snd else acc) none

/-- Headers.set in the beforeRequest hook: under lookupLast semantics an
appended entry replaces any earlier one. -/
def setHeader (hs : List (String × String)) (k v : String) : List (String × String) :=
  hs ++ [(k, v)]

/-- Model of BEREAL_DEFAULT_HEADERS (src/constants.ts, lines 82 to 98): the
fixed device and app metadata headers, a signature computed at construction
time from the current clock, and caller extras merged last so that they may
override anything. nowMs is the wall clock in epoch milliseconds at the call. -/
def BEREAL_DEFAULT_HEADERS (tz deviceId : String) (nowMs : Int)
    (extra : List (String × String)) : List (String × String) :=
  [("bereal-signature", createBeRealSignature tz deviceId (nowMs.fdiv 1000)),
   ("user-agent", "BeReal/" ++ BEREAL_APP_VERSION ++ " (" ++ BEREAL_APP_BUNDLE_ID ++
     "; build:" ++ BEREAL_APP_VERSION_CODE ++ "; " ++ BEREAL_PLATFORM ++ " " ++
     BEREAL_OS_VERSION ++ ".0)"),
   ("bereal-app-language", "en-US"),
   ("bereal-os-version", BEREAL_OS_VERSION),
   ("bereal-app-version", BEREAL_APP_VERSION),
   ("bereal-timezone", tz),
   ("bereal-platform", BEREAL_PLATFORM),
   ("bereal-app-version-code", BEREAL_APP_VERSION_CODE),
   ("bereal-device-language", "en"),
   ("accept-language", "en-US"),
   ("bereal-device-id", deviceId)] ++ extra

/-- String coercion of a JavaScript value used as a header value. The array
case is simplified to the empty string (exact only for the empty array); no
modelled code path reaches it with a nonempty array. -/
def jsStringOfJson : Json → String
  | .null => "null"
  | .bool b => cond b "true" "false"
  | .num n => toString n
  | .str s => s
  | .arr _ => ""
  | .obj _ => "[object Object]"

def jsHeaderString : Option Json → String
  | none => "undefined"
  | some j => jsStringOfJson j

/-- The millisecond expiry comparison payload.exp times 1000 less-than nowMs
used by the BeReal constructor, the accessToken setter and the
isAccessTokenExpired method (src/mobile-l7.ts lines 80, 109 and 138 to 140).
A non-numeric or absent exp gives NaN, whose comparison is false. -/
def expMsLt (pj : Json) (nowMs : Int) : Bool :=
  match pj.getField "exp" with
  | some (.num e) => decide (e * 1000 < nowMs)
  | _ => false

/-- State of a BeReal session object (class BeReal of src/mobile-l7.ts):
the decoded payload, the raw credential, the cached user id, the immutable
device id and the headers baked into the ky client. -/
structure BeReal where
  accessTokenPayload : Json
  _accessToken : String
  _userId : Option Json
  deviceId : String
  clientHeaders : List (String × String)

/-- Model of the BeReal constructor (src/mobile-l7.ts, lines 73 to 104):
parse the credential, raise the expired error when exp in milliseconds is
before nowMs, otherwise store the payload, token, user id (read from the
user_id field) and build the default client headers with authorization and
bereal-user-id, caller extras merged last. -/
def BeReal.construct (accessToken deviceId : String) (extraHeaders : List (String × String))
    (tz : String) (nowMs : Int) : Except JsError BeReal :=
  match parseAccessToken accessToken with
  | .error e => .error e
  | .ok hp =>
    let pj := hp.snd
    if expMsLt pj nowMs then .error .accessTokenExpired
    else
      .ok ⟨pj, accessToken, pj.getField "user_id", deviceId,
        BEREAL_DEFAULT_HEADERS tz deviceId nowMs
          ([("authorization", "Bearer " ++ accessToken),
            ("bereal-user-id", jsHeaderString (pj.getField "user_id"))] ++ extraHeaders)⟩

/-- Model of the accessToken setter (src/mobile-l7.ts, lines 106 to 120).
The source assigns this.accessTokenPayload from the freshly parsed token
BEFORE the expiry check, so when the check throws, the object keeps the new
payload while the raw token, user id and client headers keep their previous
values. The pair returned is the object state after the call together with
the raised error, if any. -/
def BeReal.setAccessToken (s : BeReal) (token : String) (nowMs : Int) :
    BeReal × Option JsError :=
  match parseAccessToken token with
  | .error e => (s, some e)
  | .ok hp =>
    let pj := hp.snd
    let s1 : BeReal := { s with accessTokenPayload := pj }
    if expMsLt pj nowMs then (s1, some JsError.accessTokenExpired)
    else
      ({ s1 with
          _accessToken := token
          _userId := pj.getField "user_id"
          clientHeaders := s1.clientHeaders ++
            [("authorization", "Bearer " ++ token),
             ("bereal-user-id", jsHeaderString (pj.getField "user_id"))] }, none)

/-- Getter accessToken. -/
def BeReal.accessToken (s : BeReal) : String := s._accessToken

/-- Getter userId. -/
def BeReal.userId (s : BeReal) : Option Json := s._userId

/-- Getter accessTokenPhoneNumberCountryCode, reading the decoded payload. -/
def BeReal.accessTokenPhoneNumberCountryCode (s : BeReal) : Option Json :=
  s.accessTokenPayload.getField "phone_number_country_code"

/-- Getter accessTokenExpiresAt as epoch milliseconds; none models the
invalid Date obtained from a non-numeric exp. -/
def BeReal.accessTokenExpiresAtMs (s : BeReal) : Option Int :=
  match s.accessTokenPayload.getField "exp" with
  | some (.num e) => some (e * 1000)
  | _ => none

/-- Method isAccessTokenExpired (src/mobile-l7.ts, lines 138 to 140): the
Date comparison accessTokenExpiresAt less-than now, in milliseconds. -/
def BeReal.isAccessTokenExpired (s : BeReal) (nowMs : Int) : Bool :=
  expMsLt s.accessTokenPayload nowMs

/-- One outbound request as assembled by the client: path, query parameters
and the final header set after the beforeRequest hook ran. -/
structure Request where
  path : String
  searchParams : List (String × String)
  headers : List (String × String)

/-- Headers of a dispatched BeReal request: the beforeRequest hook overwrites
bereal-signature with a signature computed from the clock at dispatch time
(src/mobile-l7.ts, lines 93 to 102). -/
def BeReal.dispatchHeaders (s : BeReal) (tz : String) (dispatchMs : Int) :
    List (String × String) :=
  setHeader s.clientHeaders "bereal-signature"
    (createBeRealSignature tz s.deviceId (dispatchMs.fdiv 1000))

def BeReal.request (s : BeReal) (tz : String) (dispatchMs : Int) (path : String)
    (sp : List (String × String)) : Request :=
  ⟨path, sp, s.dispatchHeaders tz dispatchMs⟩

/-- Endpoint getTerms: pre-flight expiry check, then the request. An expired
credential raises before any request value exists. -/
def BeReal.getTerms (s : BeReal) (tz : String) (nowMs dispatchMs : Int) :
    Except JsError Request :=
  if s.isAccessTokenExpired nowMs then .error .accessTokenExpired
  else .ok (s.request tz dispatchMs "terms" [])

/-- Endpoint getPersonMe. -/
def BeReal.getPersonMe (s : BeReal) (tz : String) (nowMs dispatchMs : Int) :
    Except JsError Request :=
  if s.isAccessTokenExpired nowMs then .error .accessTokenExpired
  else .ok (s.request tz dispatchMs "person/me" [])

/-- Endpoint getSettings. -/
def BeReal.getSettings (s : BeReal) (tz : String) (nowMs dispatchMs : Int) :
    Except JsError Request :=
  if s.isAccessTokenExpired nowMs then .error .accessTokenExpired
  else .ok (s.request tz dispatchMs "settings" [])

/-- Endpoint getFeedsFriendsV1. -/
def BeReal.getFeedsFriendsV1 (s : BeReal) (tz : String) (nowMs dispatchMs : Int) :
    Except JsError Request :=
  if s.isAccessTokenExpired nowMs then .error .accessTokenExpired
  else .ok (s.request tz dispatchMs "feeds/friends-v1" [])

/-- Endpoint getRecommendationsContacts. -/
def BeReal.getRecommendationsContacts (s : BeReal) (tz : String) (nowMs dispatchMs : Int) :
    Except JsError Request :=
  if s.isAccessTokenExpired nowMs then .error .accessTokenExpired
  else .ok (s.request tz dispatchMs "recommendations/contacts" [])

/-- Endpoint getRecommendationsFriendsAndReverse, with its search parameters. -/
def BeReal.getRecommendationsFriendsAndReverse (s : BeReal) (tz : String)
    (nowMs dispatchMs : Int) (hashedPhoneNumber : String) (limit : Int) :
    Except JsError Request :=
  if s.isAccessTokenExpired nowMs then .error .accessTokenExpired
  else .ok (s.request tz dispatchMs "recommendations/friends-and-reverse"
    [("hashed_phone_number", hashedPhoneNumber), ("limit", toString limit)])

/-- Endpoint getContentPostsMultiFormatUploadUrl; mime types joined by commas. -/
def BeReal.getContentPostsMultiFormatUploadUrl (s : BeReal) (tz : String)
    (nowMs dispatchMs : Int) (mimeTypes : List String) : Except JsError Request :=
  if s.isAccessTokenExpired nowMs then .error .accessTokenExpired
  else .ok (s.request tz dispatchMs "content/posts/multi-format-upload-url"
    [("mime_types", String.intercalate "," mimeTypes)])

/-- Client headers of a BeRealAuth instance at construction (auth-l7 module). -/
def BeRealAuth.clientHeaders (tz deviceId : String) (constructMs : Int)
    (extra : List (String × String)) : List (String × String) :=
  BEREAL_DEFAULT_HEADERS tz deviceId constructMs extra

/-- Headers of a dispatched BeRealAuth request: the beforeRequest hook sets a
fresh signature from the dispatch-time clock. -/
def BeRealAuth.dispatchHeaders (tz deviceId : String) (constructMs dispatchMs : Int)
    (extra : List (String × String)) : List (String × String) :=
  setHeader (BeRealAuth.clientHeaders tz deviceId constructMs extra) "bereal-signature"
    (createBeRealSignature tz deviceId (dispatchMs.fdiv 1000))

/-- Client headers of a BeRealAuthVonage instance at construction. -/
def BeRealAuthVonage.clientHeaders (tz deviceId : String) (constructMs : Int)
    (extra : List (String × String)) : List (String × String) :=
  BEREAL_DEFAULT_HEADERS tz deviceId constructMs extra

/-- Headers of a dispatched BeRealAuthVonage request. -/
def BeRealAuthVonage.dispatchHeaders (tz deviceId : String) (constructMs dispatchMs : Int)
    (extra : List (String × String)) : List (String × String) :=
  setHeader (BeRealAuthVonage.clientHeaders tz deviceId constructMs extra) "bereal-signature"
    (createBeRealSignature tz deviceId (dispatchMs.fdiv 1000))

/-- A token segment is malformed when it is missing, fails base64 decoding,
or its decoded text is not JSON. -/
def segMalformed : Option (List Char) → Bool
  | none => true
  | some seg =>
    match decB64 seg with
    | none => true
    | some bytes => (jsonParse (utf8DecodeStr bytes)).isNone

/-- Modelled from the spec: the base64url encoding (url-safe alphabet with
dash and underscore, unpadded) that the spec and the round-trip claim name
for token segments. The source library decodes segments with the standard
alphabet instead. -/
def encB64UrlSpec (bs : List Nat) : List Char :=
  ((encB64 bs).filter (fun c => c ≠ '=')).map
    (fun c => if c = '+' then '-' else if c = '/' then '_' else c)

/-- Concrete JWT header text used by witnesses. -/
def headerTextW : String := "\x7b\"alg\":\"HS256\",\"typ\":\"JWT\"\x7d"

/-- Its parsed JSON value. -/
def headerJsonW : Json := .obj [("alg", .str "HS256"), ("typ", .str "JWT")]

/-- Concrete payload text with distinct uid and user_id and expiry five. -/
def payloadTextW : String :=
  "\x7b\"uid\":\"a\",\"user_id\":\"b\",\"phone_number_country_code\":\"US\",\"exp\":5\x7d"

/-- Its parsed JSON value. -/
def payloadJsonW : Json :=
  .obj [("uid", .str "a"), ("user_id", .str "b"),
    ("phone_number_country_code", .str "US"), ("exp", .num 5)]

/-- Concrete well formed token built from headerTextW and payloadTextW. -/
def tokenW : String :=
  String.mk (encB64 (utf8Encode headerTextW) ++ '.' ::
    (encB64 (utf8Encode payloadTextW) ++ '.' :: "sig".data))

/-- Payload text with expiry one, for the expiry boundary inputs. -/
def payloadTextE1 : String := "\x7b\"user_id\":\"b\",\"exp\":1\x7d"

/-- Token with expiry one. -/
def tokenE1 : String :=
  String.mk (encB64 (utf8Encode headerTextW) ++ '.' ::
    (encB64 (utf8Encode payloadTextE1) ++ '.' :: "sig".data))

/-- Payload text of an unexpired credential with country code US. -/
def payloadTextOld : String :=
  "\x7b\"user_id\":\"b\",\"phone_number_country_code\":\"US\",\"exp\":2\x7d"

/-- Payload text of an already expired replacement credential with a
different user id and country code. -/
def payloadTextNew : String :=
  "\x7b\"user_id\":\"c\",\"phone_number_country_code\":\"JP\",\"exp\":0\x7d"

/-- Token of the unexpired credential. -/
def tokenOld : String :=
  String.mk (encB64 (utf8Encode headerTextW) ++ '.' ::
    (encB64 (utf8Encode payloadTextOld) ++ '.' :: "sig".data))

/-- Token of the expired replacement credential. -/
def tokenNew : String :=
  String.mk (encB64 (utf8Encode headerTextW) ++ '.' ::
    (encB64 (utf8Encode payloadTextNew) ++ '.' :: "sig".data))

/-- JSON text whose standard base64 differs from its base64url encoding
(its bytes produce a plus sign in the standard alphabet). -/
def c5PayloadText : String := "\x7b\"abc\":\">\"\x7d"

/-- Three-segment token whose first two segments are base64url encodings of
JSON serializations, as the round-trip claim words it. -/
def c5UrlToken : String :=
  String.mk (encB64UrlSpec (utf8Encode headerTextW) ++ '.' ::
    (encB64UrlSpec (utf8Encode c5PayloadText) ++ '.' :: "sig".data))

theorem charOfNat_toNat (c : Char) : Char.ofNat c.toNat = c := by
  have h : c.toNat.isValidChar := c.valid
  apply Char.eq_of_val_eq
  apply UInt32.eq_of_toBitVec_eq
  simp only [Char.ofNat, h, dif_pos, Char.ofNatAux]
  apply BitVec.eq_of_toNat_eq
  simp [Char.toNat, BitVec.toNat_ofNatLt]
  rfl

theorem char_toNat_lt (c : Char) : c.toNat < 1114112 := by
  have h : c.toNat < 55296 ∨ (57343 < c.toNat ∧ c.toNat < 1114112) := c.valid
  omega

theorem b64Val_b64Char : ∀ v, v < 64 → b64Val (b64Char v) = some v := by decide

theorem b64Char_ne_pad : ∀ v, v < 64 → b64Char v ≠ '=' := by decide

theorem b64Chars_length : b64Chars.length = 64 := by decide

theorem b64Char_of_ge (v : Nat) (h : 64 ≤ v) : b64Char v = '=' := by
  unfold b64Char
  rw [List.getD_eq_default]
  rw [b64Chars_length]
  omega

theorem b64Char_ne_dot (v : Nat) : b64Char v ≠ '.' := by
  by_cases h : v < 64
  · revert h
    revert v
    decide
  · rw [b64Char_of_ge v (by omega)]
    decide

theorem mem_encB64 : ∀ (bs : List Nat) (c : Char), c ∈ encB64 bs →
    (∃ v, c = b64Char v) ∨ c = '=' := by
  intro bs
  induction bs using encB64.induct with
  | case1 =>
    intro c h
    simp [encB64] at h
  | case2 b1 =>
    intro c h
    simp [encB64] at h
    rcases h with h | h | h
    · exact .inl ⟨_, h⟩
    · exact .inl ⟨_, h⟩
    · exact .inr h
  | case3 b1 b2 =>
    intro c h
    simp [encB64] at h
    rcases h with h | h | h | h
    · exact .inl ⟨_, h⟩
    · exact .inl ⟨_, h⟩
    · exact .inl ⟨_, h⟩
    · exact .inr h
  | case4 b1 b2 b3 rest ih =>
    intro c h
    simp only [encB64, List.mem_cons] at h
    rcases h with h | h | h | h | h
    · exact .inl ⟨_, h⟩
    · exact .inl ⟨_, h⟩
    · exact .inl ⟨_, h⟩
    · exact .inl ⟨_, h⟩
    · exact ih c h

theorem dot_not_mem_encB64 (bs : List Nat) : '.' ∉ encB64 bs := by
  intro h
  rcases mem_encB64 bs '.' h with ⟨v, hv⟩ | hv
  · exact b64Char_ne_dot v hv.symm
  · exact absurd hv (by decide)

theorem splitOnDot_append (a l : List Char) (h : '.' ∉ a) :
    splitOnDot (a ++ '.' :: l) = a :: splitOnDot l := by
  induction a with
  | nil => simp [splitOnDot]
  | cons c a ih =>
    have hc : c ≠ '.' := fun e => h (by simp [e])
    have ha : '.' ∉ a := fun m => h (List.mem_cons_of_mem c m)
    simp only [List.cons_append, splitOnDot, if_neg hc, List.append_eq, ih ha]

theorem decB64_encB64 : ∀ bs : List Nat, (∀ b ∈ bs, b < 256) →
    decB64 (encB64 bs) = some bs := by
  intro bs
  induction bs using encB64.induct with
  | case1 => intro _; rfl
  | case2 b1 =>
    intro hb
    have h1 : b1 < 256 := hb b1 (by simp)
    have e1 : b1 / 4 < 64 := by omega
    have e2 : b1 % 4 * 16 < 64 := by omega
    simp [encB64, decB64, b64Val_b64Char _ e1, b64Val_b64Char _ e2]
    omega
  | case3 b1 b2 =>
    intro hb
    have h1 : b1 < 256 := hb b1 (by simp)
    have h2 : b2 < 256 := hb b2 (by simp)
    have e1 : b1 / 4 < 64 := by omega
    have e2 : b1 % 4 * 16 + b2 / 16 < 64 := by omega
    have e3 : b2 % 16 * 4 < 64 := by omega
    simp [encB64, decB64, b64Val_b64Char _ e1, b64Val_b64Char _ e2,
      b64Val_b64Char _ e3, b64Char_ne_pad _ e3]
    omega
  | case4 b1 b2 b3 rest ih =>
    intro hb
    have h1 : b1 < 256 := hb b1 (by simp)
    have h2 : b2 < 256 := hb b2 (by simp)
    have h3 : b3 < 256 := hb b3 (by simp)
    have hrest : ∀ b ∈ rest, b < 256 := fun b m => hb b (by simp [m])
    have e1 : b1 / 4 < 64 := by omega
    have e2 : b1 % 4 * 16 + b2 / 16 < 64 := by omega
    have e3 : b2 % 16 * 4 + b3 / 64 < 64 := by omega
    have e4 : b3 % 64 < 64 := by omega
    simp [encB64, decB64, b64Val_b64Char _ e1, b64Val_b64Char _ e2,
      b64Val_b64Char _ e3, b64Val_b64Char _ e4, b64Char_ne_pad _ e4, ih hrest]
    refine ⟨by omega, by omega, by omega⟩

theorem utf8EncodeChar_lt (c : Char) : ∀ b ∈ utf8EncodeChar c, b < 256 := by
  intro b hb
  have hv : c.toNat < 1114112 := char_toNat_lt c
  simp only [utf8EncodeChar] at hb
  split at hb
  · simp at hb
    omega
  · split at hb
    · simp at hb
      rcases hb with h | h <;> omega
    · split at hb
      · simp at hb
        rcases hb with h | h | h <;> omega
      · simp at hb
        rcases hb with h | h | h | h <;> omega

theorem utf8Encode_lt (s : String) : ∀ b ∈ utf8Encode s, b < 256 := by
  intro b hb
  simp only [utf8Encode, List.mem_flatten, List.mem_map] at hb
  obtain ⟨l, ⟨c, _, rfl⟩, hbl⟩ := hb
  exact utf8EncodeChar_lt c b hbl

theorem utf8DecodeAux_encode : ∀ (cs : List Char) (fuel : Nat),
    ((cs.map utf8EncodeChar).flatten).length ≤ fuel →
    utf8DecodeAux fuel (cs.map utf8EncodeChar).flatten = cs := by
  intro cs
  induction cs with
  | nil =>
    intro fuel _
    cases fuel <;> rfl
  | cons c cs ih =>
    intro fuel hf
    have hv : c.toNat < 1114112 := char_toNat_lt c
    rw [List.map_cons, List.flatten_cons] at hf ⊢
    by_cases h1 : c.toNat < 128
    · have he : utf8EncodeChar c = [c.toNat] := by
        unfold utf8EncodeChar
        rw [if_pos h1]
      rw [he] at hf ⊢
      simp only [List.cons_append, List.nil_append] at hf ⊢
      cases fuel with
      | zero => simp at hf
      | succ f =>
        simp only [utf8DecodeAux, if_pos h1, charOfNat_toNat]
        rw [ih f (by simp only [List.length_cons] at hf; omega)]
    · by_cases h2 : c.toNat < 2048
      · have he : utf8EncodeChar c = [192 + c.toNat / 64, 128 + c.toNat % 64] := by
          unfold utf8EncodeChar
          rw [if_neg h1, if_pos h2]
        rw [he] at hf ⊢
        simp only [List.cons_append, List.nil_append] at hf ⊢
        cases fuel with
        | zero => simp at hf
        | succ f =>
          have g1 : ¬ (192 + c.toNat / 64 < 128) := by omega
          have g2 : ¬ (192 + c.toNat / 64 < 192) := by omega
          have g3 : 192 + c.toNat / 64 < 224 := by omega
          have g4 : isCont (128 + c.toNat % 64) = true := by
            simp only [isCont, Bool.and_eq_true, decide_eq_true_eq]
            omega
          simp only [utf8DecodeAux, if_neg g1, if_neg g2, if_pos g3, g4, if_true]
          have harith : (192 + c.toNat / 64 - 192) * 64 + (128 + c.toNat % 64 - 128) = c.toNat := by
            omega
          rw [harith, charOfNat_toNat]
          rw [ih f (by simp only [List.length_cons] at hf; omega)]
      · by_cases h3 : c.toNat < 65536
        · have he : utf8EncodeChar c =
              [224 + c.toNat / 4096, 128 + c.toNat / 64 % 64, 128 + c.toNat % 64] := by
            unfold utf8EncodeChar
            rw [if_neg h1, if_neg h2, if_pos h3]
          rw [he] at hf ⊢
          simp only [List.cons_append, List.nil_append] at hf ⊢
          cases fuel with
          | zero => simp at hf
          | succ f =>
            have g1 : ¬ (224 + c.toNat / 4096 < 128) := by omega
            have g2 : ¬ (224 + c.toNat / 4096 < 192) := by omega
            have g3 : ¬ (224 + c.toNat / 4096 < 224) := by omega
            have g4 : 224 + c.toNat / 4096 < 240 := by omega
            have g5 : (isCont (128 + c.toNat / 64 % 64) && isCont (128 + c.toNat % 64)) = true := by
              simp only [isCont, Bool.and_eq_true, decide_eq_true_eq]
              omega
            simp only [utf8DecodeAux, if_neg g1, if_neg g2, if_neg g3, if_pos g4, g5, if_true]
            have harith : (224 + c.toNat / 4096 - 224) * 4096 + (128 + c.toNat / 64 % 64 - 128) * 64 +
                (128 + c.toNat % 64 - 128) = c.toNat := by
              omega
            rw [harith, charOfNat_toNat]
            rw [ih f (by simp only [List.length_cons] at hf; omega)]
        · have he : utf8EncodeChar c =
              [240 + c.toNat / 262144, 128 + c.toNat / 4096 % 64,
               128 + c.toNat / 64 % 64, 128 + c.toNat % 64] := by
            unfold utf8EncodeChar
            rw [if_neg h1, if_neg h2, if_neg h3]
          rw [he] at hf ⊢
          simp only [List.cons_append, List.nil_append] at hf ⊢
          cases fuel with
          | zero => simp at hf
          | succ f =>
            have g1 : ¬ (240 + c.toNat / 262144 < 128) := by omega
            have g2 : ¬ (240 + c.toNat / 262144 < 192) := by omega
            have g3 : ¬ (240 + c.toNat / 262144 < 224) := by omega
            have g4 : ¬ (240 + c.toNat / 262144 < 240) := by omega
            have g5 : 240 + c.toNat / 262144 < 248 := by omega
            have g6 : (isCont (128 + c.toNat / 4096 % 64) && isCont (128 + c.toNat / 64 % 64) &&
                isCont (128 + c.toNat % 64)) = true := by
              simp only [isCont, Bool.and_eq_true, decide_eq_true_eq]
              omega
            simp only [utf8DecodeAux, if_neg g1, if_neg g2, if_neg g3, if_neg g4, if_pos g5, g6,
              if_true]
            have harith : (240 + c.toNat / 262144 - 240) * 262144 +
                (128 + c.toNat / 4096 % 64 - 128) * 4096 +
                (128 + c.toNat / 64 % 64 - 128) * 64 + (128 + c.toNat % 64 - 128) = c.toNat := by
              omega
            rw [harith, charOfNat_toNat]
            rw [ih f (by simp only [List.length_cons] at hf; omega)]

theorem utf8Decode_encode (s : String) : utf8Decode (utf8Encode s) = s.data := by
  unfold utf8Decode utf8Encode
  exact utf8DecodeAux_encode s.data _ le_rfl

theorem utf8DecodeStr_encode (s : String) : utf8DecodeStr (utf8Encode s) = s := by
  unfold utf8DecodeStr
  rw [utf8Decode_encode]

theorem decodeSegToJson_encB64 (s : String) (j : Json) (hj : jsonParse s = some j) :
    decodeSegToJson (some (encB64 (utf8Encode s))) = .ok j := by
  simp only [decodeSegToJson, decB64_encB64 _ (utf8Encode_lt s), utf8DecodeStr_encode, hj]

theorem decodeSegToJson_malformed (seg? : Option (List Char))
    (h : segMalformed seg? = true) :
    decodeSegToJson seg? = .error .base64DecodeError ∨
    decodeSegToJson seg? = .error .jsonSyntaxError := by
  cases seg? with
  | none => exact .inl rfl
  | some seg =>
    simp only [segMalformed] at h
    simp only [decodeSegToJson]
    cases hd : decB64 seg with
    | none => simp
    | some bytes =>
      simp only [hd] at h
      cases hp : jsonParse (utf8DecodeStr bytes) with
      | none => simp [hp]
      | some j =>
        simp only [hp, Option.isNone_some] at h
        exact absurd h (by decide)

theorem decodeSegToJson_error_kind (seg? : Option (List Char)) (e : JsError)
    (h : decodeSegToJson seg? = .error e) :
    e = .base64DecodeError ∨ e = .jsonSyntaxError := by
  cases seg? with
  | none =>
    simp only [decodeSegToJson] at h
    exact .inl (Except.error.inj h).symm
  | some seg =>
    simp only [decodeSegToJson] at h
    cases hd : decB64 seg with
    | none =>
      simp only [hd] at h
      exact .inl (Except.error.inj h).symm
    | some bytes =>
      simp only [hd] at h
      cases hp : jsonParse (utf8DecodeStr bytes) with
      | none =>
        simp only [hp] at h
        exact .inr (Except.error.inj h).symm
      | some j =>
        simp only [hp] at h
        simp at h

theorem lookupLast_foldl (ks : List (String × String)) (k : String) (acc : Option String) :
    ks.foldl (fun a p => if p.fst = k then some p.snd else a) acc =
      match lookupLast ks k with
      | some v => some v
      | none => acc := by
  induction ks generalizing acc with
  | nil => rfl
  | cons p ks ih =>
    show ks.foldl _ (if p.fst = k then some p.snd else acc) = _
    rw [ih]
    have hstep : lookupLast (p :: ks) k =
        ks.foldl (fun a q => if q.fst = k then some q.snd else a)
          (if p.fst = k then some p.snd else none) := rfl
    rw [hstep, ih]
    by_cases hp : p.fst = k
    · rw [if_pos hp, if_pos hp]
      cases lookupLast ks k <;> rfl
    · rw [if_neg hp, if_neg hp]
      cases lookupLast ks k <;> rfl

theorem lookupLast_append (hs ks : List (String × String)) (k : String) :
    lookupLast (hs ++ ks) k =
      match lookupLast ks k with
      | some v => some v
      | none => lookupLast hs k := by
  show (hs ++ ks).foldl _ none = _
  rw [List.foldl_append]
  exact lookupLast_foldl ks k _

theorem lookupLast_setHeader (hs : List (String × String)) (k v : String) :
    lookupLast (setHeader hs k v) k = some v := by
  unfold setHeader
  rw [lookupLast_append]
  simp [lookupLast]

theorem be4_lt (n : Nat) : ∀ b ∈ be4 n, b < 256 := by
  intro b hb
  simp [be4] at hb
  rcases hb with h | h | h | h <;> omega

theorem sha256_length (msg : List Nat) : (sha256 msg).length = 32 := by
  unfold sha256 sha256Serialize
  simp [be4]

theorem sha256_lt (msg : List Nat) : ∀ b ∈ sha256 msg, b < 256 := by
  intro b hb
  unfold sha256 sha256Serialize at hb
  simp only [List.append_assoc, List.mem_append] at hb
  rcases hb with h | h | h | h | h | h | h | h <;> exact be4_lt _ b h

theorem hmacSha256_length (key msg : List Nat) : (hmacSha256 key msg).length = 32 := by
  unfold hmacSha256
  exact sha256_length _

theorem hmacSha256_lt (key msg : List Nat) : ∀ b ∈ hmacSha256 key msg, b < 256 := by
  unfold hmacSha256
  exact sha256_lt _

/-- C5 (amended): for every pair of strings that JSON-parse to a header and
a payload value, the three-segment token whose first two segments are the
STANDARD base64 encodings of those serializations (the encoding the library
actually reads; the claim said base64url) is decoded by parseAccessToken to
exactly that header and payload, whatever the third segment holds. -/
theorem parseAccessToken_roundtrip (s1 s2 sig : String) (hj pj : Json)
    (h1 : jsonParse s1 = some hj) (h2 : jsonParse s2 = some pj) :
    parseAccessToken (String.mk (encB64 (utf8Encode s1) ++ '.' ::
      (encB64 (utf8Encode s2) ++ '.' :: sig.data))) = .ok (hj, pj) := by
  have hsplit : splitOnDot (String.mk (encB64 (utf8Encode s1) ++ '.' ::
      (encB64 (utf8Encode s2) ++ '.' :: sig.data))).data =
      encB64 (utf8Encode s1) :: encB64 (utf8Encode s2) :: splitOnDot sig.data := by
    show splitOnDot (encB64 (utf8Encode s1) ++ '.' ::
      (encB64 (utf8Encode s2) ++ '.' :: sig.data)) = _
    rw [splitOnDot_append _ _ (dot_not_mem_encB64 _),
      splitOnDot_append _ _ (dot_not_mem_encB64 _)]
  unfold parseAccessToken
  rw [hsplit]
  simp only [List.getElem?_cons_zero, List.getElem?_cons_succ]
  rw [decodeSegToJson_encB64 s1 hj h1, decodeSegToJson_encB64 s2 pj h2]

/-- C5 witness: the round-trip theorem applied to a concrete header and
payload pair. -/
theorem parseAccessToken_roundtrip_witness :
    jsonParse headerTextW = some headerJsonW ∧
    parseAccessToken (String.mk (encB64 (utf8Encode headerTextW) ++ '.' ::
      (encB64 (utf8Encode payloadTextW) ++ '.' :: "sig".data))) =
      .ok (headerJsonW, payloadJsonW) :=
  ⟨rfl, parseAccessToken_roundtrip headerTextW payloadTextW "sig"
    headerJsonW payloadJsonW rfl rfl⟩

/-- C5 counterexample: a three-segment token whose first two segments are
the base64url encodings (as the claim states) of valid JSON serializations
is NOT decoded back to that pair: the payload segment carries a dash, which
the standard-alphabet decoder used by parseAccessToken rejects. -/
theorem parseAccessToken_base64url_cex :
    (jsonParse headerTextW).isSome = true ∧
    (jsonParse c5PayloadText).isSome = true ∧
    parseAccessToken c5UrlToken = .error .base64DecodeError := ⟨rfl, rfl, rfl⟩

/-- C10: parseAccessToken succeeds with exactly the header and payload
decoded from the first two dot-separated segments, with no condition on the
total number of segments: a two-segment token or a token with four or more
segments is accepted, and nothing past segment one is inspected. -/
theorem parseAccessToken_ignores_extra_segments (t : String) (hj pj : Json)
    (h0 : decodeSegToJson (splitOnDot t.data)[0]? = .ok hj)
    (h1 : decodeSegToJson (splitOnDot t.data)[1]? = .ok pj) :
    parseAccessToken t = .ok (hj, pj) := by
  unfold parseAccessToken
  simp only [h0, h1]

/-- C10 witness: the theorem applied to a concrete two-segment token and to
a concrete five-segment token built from the same header and payload. -/
theorem parseAccessToken_ignores_extra_segments_witness :
    parseAccessToken (String.mk (encB64 (utf8Encode headerTextW) ++ '.' ::
      encB64 (utf8Encode payloadTextW))) = .ok (headerJsonW, payloadJsonW) ∧
    parseAccessToken (String.mk (encB64 (utf8Encode headerTextW) ++ '.' ::
      (encB64 (utf8Encode payloadTextW) ++ '.' :: "a.b.c".data))) =
      .ok (headerJsonW, payloadJsonW) :=
  ⟨parseAccessToken_ignores_extra_segments _ headerJsonW payloadJsonW rfl rfl,
   parseAccessToken_ignores_extra_segments _ headerJsonW payloadJsonW rfl rfl⟩

/-- C2: an input with fewer than two dot-separated segments, or whose first
two segments fail base64 decoding or decode to text that is not valid JSON,
makes parseAccessToken fail with one of the two malformed-token error kinds
(the spec groups them as MalformedTokenError) and never with any other error
kind; in particular never with the expired-credential error. -/
theorem parseAccessToken_malformed (t : String)
    (h : (splitOnDot t.data).length < 2 ∨
      segMalformed (splitOnDot t.data)[0]? = true ∨
      segMalformed (splitOnDot t.data)[1]? = true) :
    isMalformedFailure (parseAccessToken t) = true := by
  have h2 : segMalformed (splitOnDot t.data)[0]? = true ∨
      segMalformed (splitOnDot t.data)[1]? = true := by
    rcases h with hlen | h0 | h1
    · right
      rw [List.getElem?_eq_none (by omega)]
      rfl
    · exact .inl h0
    · exact .inr h1
  unfold parseAccessToken
  cases d0 : decodeSegToJson (splitOnDot t.data)[0]? with
  | error e =>
    rcases decodeSegToJson_error_kind _ e d0 with rfl | rfl <;> rfl
  | ok hj =>
    simp only [d0]
    cases d1 : decodeSegToJson (splitOnDot t.data)[1]? with
    | error e =>
      rcases decodeSegToJson_error_kind _ e d1 with rfl | rfl <;> rfl
    | ok pj =>
      rcases h2 with hm | hm <;>
        rcases decodeSegToJson_malformed _ hm with he | he
      · rw [he] at d0
        simp at d0
      · rw [he] at d0
        simp at d0
      · rw [he] at d1
        simp at d1
      · rw [he] at d1
        simp at d1

/-- C2 witness: the malformed theorem applied to a dotless input, to an
input whose segments are not base64, and to an input whose second segment
decodes to text that is not JSON. -/
theorem parseAccessToken_malformed_witness :
    isMalformedFailure (parseAccessToken "x") = true ∧
    isMalformedFailure (parseAccessToken "!!.!!") = true ∧
    isMalformedFailure (parseAccessToken (String.mk
      (encB64 (utf8Encode "\x7b\x7d") ++ '.' :: encB64 (utf8Encode "ab")))) = true :=
  ⟨parseAccessToken_malformed "x" (.inl (by decide)),
   parseAccessToken_malformed "!!.!!" (.inr (.inl (by decide))),
   parseAccessToken_malformed _ (.inr (.inr (by decide)))⟩

/-- C6: for a token whose payload carries a numeric exp, isAccessTokenExpired
returns true exactly when exp is strictly below the current epoch second; a
token with exp equal to now is not expired, one with exp equal to now minus
one is expired. -/
theorem isAccessTokenExpired_strict_lt (token : String) (hj pj : Json) (e nowSec : Int)
    (hp : parseAccessToken token = .ok (hj, pj))
    (hexp : pj.getField "exp" = some (.num e)) :
    isAccessTokenExpired token nowSec = .ok (decide (e < nowSec)) ∧
    (e = nowSec → isAccessTokenExpired token nowSec = .ok false) ∧
    (e = nowSec - 1 → isAccessTokenExpired token nowSec = .ok true) := by
  have hmain : isAccessTokenExpired token nowSec = .ok (decide (e < nowSec)) := by
    simp only [isAccessTokenExpired, hp, expSecLt, hexp]
  refine ⟨hmain, fun he => ?_, fun he => ?_⟩
  · rw [hmain]
    have : decide (e < nowSec) = false := by
      subst he
      simp
    rw [this]
  · rw [hmain]
    have : decide (e < nowSec) = true := by
      subst he
      simp only [decide_eq_true_eq]
      omega
    rw [this]

/-- C6 witness: the boundary theorem applied to a concrete token with exp
five, at now five and at now six. -/
theorem isAccessTokenExpired_strict_lt_witness :
    isAccessTokenExpired tokenW 5 = .ok false ∧
    isAccessTokenExpired tokenW 6 = .ok true :=
  ⟨(isAccessTokenExpired_strict_lt tokenW headerJsonW payloadJsonW 5 5 rfl rfl).2.1 rfl,
   (isAccessTokenExpired_strict_lt tokenW headerJsonW payloadJsonW 5 6 rfl rfl).2.2 (by decide)⟩

/-- C3 (amended): when the wall clock lies exactly on the second boundary
(nowMs equal to 1000 times exp, so exp equals the current epoch second),
constructing a session succeeds, its isAccessTokenExpired method returns
false, and the codec-level check agrees. In general the session-level checks
compare exp times 1000 against the millisecond clock, so away from the
boundary they can disagree with the codec-level whole-second rule. -/
theorem session_expiry_whole_second (token deviceId tz : String)
    (extra : List (String × String)) (hj pj : Json) (e : Int)
    (hp : parseAccessToken token = .ok (hj, pj))
    (hexp : pj.getField "exp" = some (.num e)) :
    (BeReal.construct token deviceId extra tz (1000 * e)).map
      (fun s => s.isAccessTokenExpired (1000 * e)) = .ok false ∧
    isAccessTokenExpired token e = .ok false := by
  have hlt : expMsLt pj (1000 * e) = false := by
    simp only [expMsLt, hexp]
    simp only [decide_eq_false_iff_not]
    omega
  constructor
  · simp only [BeReal.construct, hp, hlt, Bool.false_eq_true, if_false, Except.map,
      BeReal.isAccessTokenExpired, hlt]
  · simp only [isAccessTokenExpired, hp, expSecLt, hexp]
    simp

/-- C3 witness: the amended theorem applied to a token with exp one at the
boundary clock 1000 milliseconds. -/
theorem session_expiry_whole_second_witness :
    (BeReal.construct tokenE1 "dev" [] "TZ" (1000 * 1)).map
      (fun s => s.isAccessTokenExpired (1000 * 1)) = .ok false ∧
    isAccessTokenExpired tokenE1 1 = .ok false :=
  session_expiry_whole_second tokenE1 "dev" "TZ" []
    headerJsonW (Json.obj [("user_id", Json.str "b"), ("exp", Json.num 1)]) 1 rfl rfl

/-- C3 counterexample: with exp one and the clock at 1500 milliseconds the
current epoch second equals exp, so the claim asserts construction succeeds
and the method agrees with the codec; but the codec says not expired while
construction raises the expired error and a session built earlier now
reports expired, because the session layer compares in milliseconds. -/
theorem session_expiry_ms_cex :
    isAccessTokenExpired tokenE1 1 = .ok false ∧
    BeReal.construct tokenE1 "dev" [] "TZ" 1500 = .error .accessTokenExpired ∧
    (BeReal.construct tokenE1 "dev" [] "TZ" 500).map
      (fun s => s.isAccessTokenExpired 1500) = .ok true := ⟨rfl, rfl, rfl⟩

/-- C1: evaluation of the failing credential swap. A session holds tokenOld
(exp two, country code US, user id b). Replacing with tokenNew (a decodable
but expired token with different user id and country code) at clock 1000
raises the expired error, and afterwards the raw token and user id are still
the old ones while the decoded payload and the derived expiry and country
code accessors already reflect the rejected replacement: the swap is not
atomic, because the source stores the new payload before the expiry check. -/
theorem setAccessToken_partial_update :
    (BeReal.construct tokenOld "dev" [] "TZ" 1000).map (fun s =>
      ((s.setAccessToken tokenNew 1000).snd,
       (s.setAccessToken tokenNew 1000).fst.accessToken,
       (s.setAccessToken tokenNew 1000).fst.userId,
       (s.setAccessToken tokenNew 1000).fst.accessTokenExpiresAtMs,
       (s.setAccessToken tokenNew 1000).fst.accessTokenPhoneNumberCountryCode)) =
      .ok (some JsError.accessTokenExpired, tokenOld, some (Json.str "b"),
        some 0, some (Json.str "JP")) ∧
    (BeReal.construct tokenOld "dev" [] "TZ" 1000).map (fun s =>
      (s.accessTokenExpiresAtMs, s.accessTokenPhoneNumberCountryCode)) =
      .ok (some 2000, some (Json.str "US")) ∧
    ((some (0 : Int), some (Json.str "JP")) ≠ (some (2000 : Int), some (Json.str "US"))) := by
  refine ⟨rfl, rfl, ?_⟩
  intro h
  have h2 := congrArg Prod.fst h
  simp at h2

/-- C9 (amended): whenever a session is constructed with caller extras that
do not override the bereal-user-id header, or updated through the setter,
and the payload carries a user_id string differing from its uid field, the
userId accessor and the bereal-user-id header both equal user_id: identity
is derived exclusively from user_id and the uid duplicate is never read. -/
theorem userId_from_user_id_field (token deviceId tz : String)
    (extra : List (String × String)) (nowMs : Int) (hj pj : Json) (u : String)
    (hp : parseAccessToken token = .ok (hj, pj))
    (hu : pj.getField "user_id" = some (Json.str u))
    (_hne : pj.getField "uid" ≠ pj.getField "user_id")
    (hnx : lookupLast extra "bereal-user-id" = none)
    (hexp0 : expMsLt pj nowMs = false) :
    (BeReal.construct token deviceId extra tz nowMs).map
      (fun s => (s.userId, lookupLast s.clientHeaders "bereal-user-id")) =
      .ok (some (Json.str u), some u) ∧
    ∀ s0 : BeReal,
      (s0.setAccessToken token nowMs).snd = none ∧
      (s0.setAccessToken token nowMs).fst.userId = some (Json.str u) ∧
      lookupLast (s0.setAccessToken token nowMs).fst.clientHeaders "bereal-user-id" =
        some u := by
  have hjs : jsHeaderString (pj.getField "user_id") = u := by
    rw [hu]
    rfl
  have hpair : lookupLast [("authorization", "Bearer " ++ token),
      ("bereal-user-id", jsHeaderString (pj.getField "user_id"))] "bereal-user-id" =
      some u := by
    rw [hjs]
    rfl
  have hhdr : lookupLast (BEREAL_DEFAULT_HEADERS tz deviceId nowMs
      ([("authorization", "Bearer " ++ token),
        ("bereal-user-id", jsHeaderString (pj.getField "user_id"))] ++ extra))
      "bereal-user-id" = some u := by
    unfold BEREAL_DEFAULT_HEADERS
    rw [lookupLast_append, lookupLast_append, hnx]
    simp only [hpair]
  constructor
  · simp only [BeReal.construct, hp, hexp0, Bool.false_eq_true, if_false, Except.map,
      BeReal.userId]
    rw [hhdr, hu]
  · intro s0
    refine ⟨?_, ?_, ?_⟩
    · simp only [BeReal.setAccessToken, hp, hexp0, Bool.false_eq_true, if_false]
    · simp only [BeReal.setAccessToken, hp, hexp0, Bool.false_eq_true, if_false,
        BeReal.userId]
      exact hu
    · simp only [BeReal.setAccessToken, hp, hexp0, Bool.false_eq_true, if_false]
      rw [lookupLast_append]
      simp only [hpair]

/-- C9 witness: the theorem applied to a concrete token whose uid is a and
whose user_id is b, with no extras, plus one setter application. -/
theorem userId_from_user_id_field_witness :
    (BeReal.construct tokenW "dev" [] "TZ" 0).map
      (fun s => (s.userId, lookupLast s.clientHeaders "bereal-user-id")) =
      .ok (some (Json.str "b"), some "b") ∧
    ((⟨Json.null, "old", none, "dev", []⟩ : BeReal).setAccessToken tokenW 0).fst.userId =
      some (Json.str "b") :=
  ⟨(userId_from_user_id_field tokenW "dev" "TZ" [] 0 headerJsonW payloadJsonW "b"
      rfl rfl (by simp [payloadJsonW, Json.getField]) rfl rfl).1,
   ((userId_from_user_id_field tokenW "dev" "TZ" [] 0 headerJsonW payloadJsonW "b"
      rfl rfl (by simp [payloadJsonW, Json.getField]) rfl rfl).2
      ⟨Json.null, "old", none, "dev", []⟩).2.1⟩

/-- C9 counterexample: the claim as stated fails for a freshly constructed
session when the caller extra headers override bereal-user-id, since extras
are merged last: the header then differs from the decoded user_id while the
userId accessor still equals it. -/
theorem userId_header_override_cex :
    (BeReal.construct tokenW "dev" [("bereal-user-id", "EVIL")] "TZ" 0).map
      (fun s => lookupLast s.clientHeaders "bereal-user-id") = .ok (some "EVIL") ∧
    (BeReal.construct tokenW "dev" [("bereal-user-id", "EVIL")] "TZ" 0).map
      (fun s => s.userId) = .ok (some (Json.str "b")) ∧
    ("EVIL" : String) ≠ "b" := ⟨rfl, rfl, by decide⟩

/-- C7: every authenticated endpoint method of the BeReal client (getTerms,
getPersonMe, getSettings, getFeedsFriendsV1, getRecommendationsContacts,
getRecommendationsFriendsAndReverse, getContentPostsMultiFormatUploadUrl)
first evaluates isAccessTokenExpired against the current clock, and when
the credential has expired it raises the expired error instead of building
or dispatching any request. -/
theorem endpoints_preflight_expiry (s : BeReal) (tz : String) (nowMs dispatchMs : Int)
    (hashedPhoneNumber : String) (limit : Int) (mimeTypes : List String)
    (h : s.isAccessTokenExpired nowMs = true) :
    s.getTerms tz nowMs dispatchMs = .error .accessTokenExpired ∧
    s.getPersonMe tz nowMs dispatchMs = .error .accessTokenExpired ∧
    s.getSettings tz nowMs dispatchMs = .error .accessTokenExpired ∧
    s.getFeedsFriendsV1 tz nowMs dispatchMs = .error .accessTokenExpired ∧
    s.getRecommendationsContacts tz nowMs dispatchMs = .error .accessTokenExpired ∧
    s.getRecommendationsFriendsAndReverse tz nowMs dispatchMs hashedPhoneNumber limit =
      .error .accessTokenExpired ∧
    s.getContentPostsMultiFormatUploadUrl tz nowMs dispatchMs mimeTypes =
      .error .accessTokenExpired := by
  unfold BeReal.getTerms BeReal.getPersonMe BeReal.getSettings BeReal.getFeedsFriendsV1
    BeReal.getRecommendationsContacts BeReal.getRecommendationsFriendsAndReverse
    BeReal.getContentPostsMultiFormatUploadUrl
  simp [h]

/-- C7 witness: the pre-flight theorem applied to a concrete expired session
for the first and the last endpoint of the list. -/
theorem endpoints_preflight_expiry_witness :
    (⟨Json.obj [("exp", Json.num 0)], "tok", none, "dev", []⟩ : BeReal).isAccessTokenExpired
      5000 = true ∧
    (⟨Json.obj [("exp", Json.num 0)], "tok", none, "dev", []⟩ : BeReal).getTerms
      "TZ" 5000 6000 = .error .accessTokenExpired ∧
    (⟨Json.obj [("exp", Json.num 0)], "tok", none, "dev", []⟩ :
      BeReal).getContentPostsMultiFormatUploadUrl "TZ" 5000 6000 ["image/jpeg"] =
      .error .accessTokenExpired :=
  ⟨rfl,
   (endpoints_preflight_expiry (⟨Json.obj [("exp", Json.num 0)], "tok", none, "dev", []⟩ :
     BeReal) "TZ" 5000 6000 "hp" 50 ["image/jpeg"] rfl).1,
   (endpoints_preflight_expiry (⟨Json.obj [("exp", Json.num 0)], "tok", none, "dev", []⟩ :
     BeReal) "TZ" 5000 6000 "hp" 50 ["image/jpeg"] rfl).2.2.2.2.2.2⟩

/-- C8: for each of the three clients (BeReal, BeRealAuth, BeRealAuthVonage)
the bereal-signature header of a dispatched request equals the signature
computed from the clock at dispatch time, for every construction-time clock
and extras: the beforeRequest hook replaces the value precomputed into the
default headers, which the final conjunct shows is the construction-time
signature. -/
theorem dispatch_signature_fresh (s : BeReal) (tz deviceId : String)
    (constructMs dispatchMs : Int) (extra : List (String × String)) :
    lookupLast (s.dispatchHeaders tz dispatchMs) "bereal-signature" =
      some (createBeRealSignature tz s.deviceId (dispatchMs.fdiv 1000)) ∧
    lookupLast (BeRealAuth.dispatchHeaders tz deviceId constructMs dispatchMs extra)
      "bereal-signature" = some (createBeRealSignature tz deviceId (dispatchMs.fdiv 1000)) ∧
    lookupLast (BeRealAuthVonage.dispatchHeaders tz deviceId constructMs dispatchMs extra)
      "bereal-signature" = some (createBeRealSignature tz deviceId (dispatchMs.fdiv 1000)) ∧
    lookupLast (BEREAL_DEFAULT_HEADERS tz deviceId constructMs []) "bereal-signature" =
      some (createBeRealSignature tz deviceId (constructMs.fdiv 1000)) :=
  ⟨lookupLast_setHeader _ _ _, lookupLast_setHeader _ _ _,
   lookupLast_setHeader _ _ _, rfl⟩

/-- C4: the signature equals the base64 encoding of the UTF-8 bytes of the
version-and-timestamp tag followed by the HMAC-SHA256 (under the fixed key)
of the base64 of the deviceId, timezone and timestamp payload; moreover
base64-decoding the result recovers exactly those tag bytes followed by the
32-byte digest. Determinism is inherent: the model is a pure function of
tz, deviceId and timestamp. -/
theorem createBeRealSignature_layout (tz deviceId : String) (timestamp : Int) :
    createBeRealSignature tz deviceId timestamp =
      String.mk (encB64 (utf8Encode ("1:" ++ toString timestamp ++ ":") ++
        hmacSha256 BEREAL_HMAC_KEY (utf8Encode (String.mk
          (encB64 (utf8Encode (deviceId ++ tz ++ toString timestamp))))))) ∧
    decB64 (createBeRealSignature tz deviceId timestamp).data =
      some (utf8Encode ("1:" ++ toString timestamp ++ ":") ++
        hmacSha256 BEREAL_HMAC_KEY (utf8Encode (String.mk
          (encB64 (utf8Encode (deviceId ++ tz ++ toString timestamp)))))) ∧
    (hmacSha256 BEREAL_HMAC_KEY (utf8Encode (String.mk
      (encB64 (utf8Encode (deviceId ++ tz ++ toString timestamp)))))).length = 32 := by
  refine ⟨rfl, ?_, hmacSha256_length _ _⟩
  have hdata : (createBeRealSignature tz deviceId timestamp).data =
      encB64 (utf8Encode ("1:" ++ toString timestamp ++ ":") ++
        hmacSha256 BEREAL_HMAC_KEY (utf8Encode (String.mk
          (encB64 (utf8Encode (deviceId ++ tz ++ toString timestamp)))))) := rfl
  rw [hdata]
  apply decB64_encB64
  intro b hb
  rcases List.mem_append.mp hb with h | h
  · exact utf8Encode_lt _ b h
  · exact hmacSha256_lt _ _ b h
